import Mathlib

/-!
Shallow embedding of the FeedingTracker event-log store (`feeding_server.py`).

The store keeps two logs (feedings, diaper changes) in a SQLite file.  Rows carry a
textual timestamp in the fixed format `YYYY-MM-DD HH:MM:SS`, understood as UTC+8 civil
time.  All "most recent" queries sort the stored timestamp strings with SQLite's binary
collation, which on these ASCII strings agrees with Lean's lexicographic `String` order.
The embedding passes the current UTC+8 civil time (`datetime.utcnow() + 8h` in the
source) explicitly as a `DateTime` argument.
-/

/-- A civil date-time at second granularity, standing for Python's `datetime.datetime`
(microseconds are not observable through any of the modelled operations). -/
structure DateTime where
  year : Nat
  month : Nat
  day : Nat
  hour : Nat
  minute : Nat
  second : Nat
deriving DecidableEq

/-- Gregorian leap-year rule, as used by Python's `datetime` calendar. -/
def isLeap (y : Nat) : Bool := (y % 4 == 0 && y % 100 != 0) || y % 400 == 0

/-- Days in a month of the proleptic Gregorian calendar. -/
def daysInMonth (y m : Nat) : Nat :=
  if m = 2 then (if isLeap y then 29 else 28)
  else if m = 4 ∨ m = 6 ∨ m = 9 ∨ m = 11 then 30
  else 31

/-- Number of leap years in `1..y`. -/
def leapsUpTo (y : Nat) : Nat := y / 4 - y / 100 + y / 400

/-- Days in months `1..m-1` of year `y`. -/
def daysBeforeMonth (y : Nat) : Nat → Nat
  | 0 => 0
  | 1 => 0
  | n + 1 => daysBeforeMonth y n + daysInMonth y n

/-- Proleptic-Gregorian ordinal of a date (day 1 = 0001-01-01), as in Python's
`datetime.toordinal`, extended with the time-of-day fields ignored. -/
def toOrdinal (t : DateTime) : Nat :=
  365 * (t.year - 1) + leapsUpTo (t.year - 1) + daysBeforeMonth t.year t.month + t.day

/-- Absolute second count of a civil date-time; differences of `toSecs` agree with
Python `timedelta.total_seconds()` on whole-second datetimes. -/
def toSecs (t : DateTime) : Int :=
  (toOrdinal t : Int) * 86400 + (t.hour : Int) * 3600 + (t.minute : Int) * 60 + (t.second : Int)

/-- Zero-padded two-digit field, as produced by `strftime` `%d`/`%H`/`%M`/`%S`/`%m`. -/
def pad2 (n : Nat) : String := if n < 10 then "0" ++ toString n else toString n

/-- Zero-padded four-digit year, as produced by `strftime` `%Y` on the years at hand. -/
def pad4 (n : Nat) : String :=
  if n < 10 then "000" ++ toString n
  else if n < 100 then "00" ++ toString n
  else if n < 1000 then "0" ++ toString n
  else toString n

/-- `strftime('%Y-%m-%d')`. -/
def formatDate (t : DateTime) : String :=
  pad4 t.year ++ "-" ++ pad2 t.month ++ "-" ++ pad2 t.day

/-- `strftime('%Y-%m-%d %H:%M:%S')`. -/
def formatDateTime (t : DateTime) : String :=
  formatDate t ++ " " ++ pad2 t.hour ++ ":" ++ pad2 t.minute ++ ":" ++ pad2 t.second

/-- The calendar date one day later (`now + timedelta(days=1)`), time of day kept. -/
def nextDay (t : DateTime) : DateTime :=
  if t.day < daysInMonth t.year t.month then { t with day := t.day + 1 }
  else if t.month < 12 then { t with day := 1, month := t.month + 1 }
  else { t with day := 1, month := 1, year := t.year + 1 }

/-- ASCII decimal digit, the `\d` of the `strptime` field patterns. -/
def isDigitChar (c : Char) : Bool := '0' ≤ c && c ≤ '9'

/-- ASCII whitespace, the `\s` that a literal blank in a `strptime` format matches. -/
def isSpaceChar (c : Char) : Bool :=
  c == ' ' || c == '\t' || c == '\n' || c == '\r' || c == '\x0b' || c == '\x0c'

/-- Maximal digit run at the front of the character list, with the rest. -/
def takeDigits : List Char → List Char × List Char
  | [] => ([], [])
  | c :: cs =>
    if isDigitChar c then
      let p := takeDigits cs
      (c :: p.1, p.2)
    else ([], c :: cs)

/-- Maximal whitespace-run length at the front of the character list, with the rest. -/
def takeSpaces : List Char → Nat × List Char
  | [] => (0, [])
  | c :: cs =>
    if isSpaceChar c then
      let p := takeSpaces cs
      (p.1 + 1, p.2)
    else (0, c :: cs)

/-- Numeric value of a digit run. -/
def digitsVal (ds : List Char) : Nat :=
  ds.foldl (fun a c => 10 * a + (c.toNat - 48)) 0

/-- Consume one expected literal character. -/
def expectChar (c : Char) : List Char → Option (List Char)
  | [] => none
  | x :: xs => if x = c then some xs else none

/-- `datetime.datetime.strptime(s, "%Y-%m-%d %H:%M:%S")`, returning `none` exactly when
Python raises `ValueError`.  Per CPython's `_strptime` regex: `%Y` is exactly four
digits; the other fields are one- or two-digit runs whose two-digit forms are range
limited (month 1-12, day 1-31, hour 0-23, minute 0-59); the literal blank matches one or
more whitespace characters; the whole string must be consumed.  The `datetime`
constructor then requires year ≥ 1, day within the month, and second ≤ 59. -/
def parseTimestamp (s : String) : Option DateTime := do
  let p1 := takeDigits s.data
  guard (p1.1.length = 4)
  let y := digitsVal p1.1
  let r2 ← expectChar '-' p1.2
  let p2 := takeDigits r2
  guard (1 ≤ p2.1.length ∧ p2.1.length ≤ 2)
  let mo := digitsVal p2.1
  let r3 ← expectChar '-' p2.2
  let p3 := takeDigits r3
  guard (1 ≤ p3.1.length ∧ p3.1.length ≤ 2)
  let d := digitsVal p3.1
  let p4 := takeSpaces p3.2
  guard (1 ≤ p4.1)
  let p5 := takeDigits p4.2
  guard (1 ≤ p5.1.length ∧ p5.1.length ≤ 2)
  let h := digitsVal p5.1
  let r6 ← expectChar ':' p5.2
  let p6 := takeDigits r6
  guard (1 ≤ p6.1.length ∧ p6.1.length ≤ 2)
  let mi := digitsVal p6.1
  let r7 ← expectChar ':' p6.2
  let p7 := takeDigits r7
  guard (1 ≤ p7.1.length ∧ p7.1.length ≤ 2)
  let se := digitsVal p7.1
  guard (p7.2 = [])
  guard (1 ≤ y ∧ 1 ≤ mo ∧ mo ≤ 12 ∧ 1 ≤ d ∧ d ≤ daysInMonth y mo ∧
         h ≤ 23 ∧ mi ≤ 59 ∧ se ≤ 59)
  pure ⟨y, mo, d, h, mi, se⟩

/-- A stored row: SQLite-assigned integer key, the timestamp text column, and the
remaining columns of the table as a payload. -/
structure Row (α : Type) where
  id : Nat
  timestamp : String
  payload : α
deriving DecidableEq

/-- Payload of a `feedings` row: the `amount_ml` and `feeding_type` columns. -/
structure FeedData where
  amount_ml : Int
  feeding_type : String
deriving DecidableEq

abbrev FeedingRow := Row FeedData

/-- A `diaper_changes` row carries only the `diaper_type` column. -/
abbrev DiaperRow := Row String

/-- Lexicographic order on character lists; on UTF-8 text this agrees with SQLite's
binary collation (memcmp), since UTF-8 byte order is codepoint order. -/
def charListLe : List Char → List Char → Bool
  | [], _ => true
  | _ :: _, [] => false
  | a :: as, b :: bs => a < b || (a == b && charListLe as bs)

/-- `a <= b` for the stored timestamp strings under the binary collation. -/
def strLe (a b : String) : Bool := charListLe a.data b.data

/-- `a < b` under the binary collation. -/
def strLt (a b : String) : Bool := !(strLe b a)

/-- The `ORDER BY timestamp DESC` ordering on rows: `a` is ranked no later than `b`. -/
def rowDesc {α : Type} (a b : Row α) : Prop := strLe b.timestamp a.timestamp = true

instance {α : Type} : DecidableRel (@rowDesc α) :=
  fun a b => instDecidableEqBool (strLe b.timestamp a.timestamp) true

/-- `ORDER BY timestamp DESC`: stable descending sort on the timestamp text under the
binary collation (ties keep insertion order; SQLite leaves the tie order unspecified,
and the model fixes one deterministically). -/
def sortDesc {α : Type} (l : List (Row α)) : List (Row α) :=
  List.insertionSort rowDesc l

/-- `ORDER BY timestamp DESC LIMIT 1`. -/
def topRow {α : Type} (l : List (Row α)) : Option (Row α) :=
  (sortDesc l).head?

/-- `DELETE FROM t WHERE id = (SELECT id FROM t ORDER BY timestamp DESC LIMIT 1)`:
when the table is empty the subquery yields NULL and no row matches. -/
def removeTop {α : Type} [DecidableEq α] (l : List (Row α)) : List (Row α) :=
  match topRow l with
  | none => l
  | some r => l.filter (fun x => x.id ≠ r.id)

/-- The mutable store state reachable through the modelled operations: both tables
exist (see `Store`/`init_db` for table creation), and SQLite's AUTOINCREMENT next-id
counters are tracked explicitly. -/
structure DB where
  feedings : List FeedingRow
  diapers : List DiaperRow
  nextFeedingId : Nat
  nextDiaperId : Nat
deriving DecidableEq

def emptyDB : DB := ⟨[], [], 1, 1⟩

/-- A store in which each of the two tables may or may not exist yet; `none` means the
table is absent from the schema. -/
structure Store where
  feedingsTable : Option (List FeedingRow)
  diapersTable : Option (List DiaperRow)
deriving DecidableEq

/-- `init_db`: two `CREATE TABLE IF NOT EXISTS` statements — each table is created
empty when absent and left untouched when present. -/
def init_db (s : Store) : Store :=
  { feedingsTable := some (s.feedingsTable.getD [])
  , diapersTable := some (s.diapersTable.getD []) }

def feedingSuccessMsg (amount_ml : Int) (feeding_type timestamp : String) : String :=
  "Successfully recorded feeding of " ++ toString amount_ml ++ "ml (" ++ feeding_type ++
    ") at " ++ timestamp ++ "."

/-- The `record_feeding` validation-error result; the Python message interpolates
`str(ValueError)`, whose exact wording is not load-bearing for any claim. -/
def feedingErrorMsg : String :=
  "Error recording feeding: time data does not match format \x27%Y-%m-%d %H:%M:%S\x27"

/-- `record_feeding(amount_ml, feeding_type, timestamp)`.  An empty `timestamp` is the
"absent" default and is replaced by the formatted current UTC+8 time; a non-empty one
must survive `strptime` or the call returns the error string with nothing inserted. -/
def record_feeding (now : DateTime) (amount_ml : Int) (feeding_type : String)
    (timestamp : String) (db : DB) : DB × String :=
  if timestamp = "" then
    let ts := formatDateTime now
    ({ db with
        feedings := db.feedings ++ [⟨db.nextFeedingId, ts, ⟨amount_ml, feeding_type⟩⟩],
        nextFeedingId := db.nextFeedingId + 1 },
     feedingSuccessMsg amount_ml feeding_type ts)
  else
    match parseTimestamp timestamp with
    | none => (db, feedingErrorMsg)
    | some _ =>
      ({ db with
          feedings := db.feedings ++
            [⟨db.nextFeedingId, timestamp, ⟨amount_ml, feeding_type⟩⟩],
          nextFeedingId := db.nextFeedingId + 1 },
       feedingSuccessMsg amount_ml feeding_type timestamp)

/-- `f"{today} 00:00:00"`, the inclusive lower bound of today's window. -/
def dayStart (now : DateTime) : String := formatDate now ++ " 00:00:00"

/-- `f"{tomorrow} 00:00:00"`, the exclusive upper bound of today's window. -/
def dayEnd (now : DateTime) : String := formatDate (nextDay now) ++ " 00:00:00"

/-- The SQL predicate `timestamp >= start_ts AND timestamp < end_ts` under the binary
text collation. -/
def inTodayWindow (now : DateTime) (ts : String) : Bool :=
  strLe (dayStart now) ts && strLt ts (dayEnd now)

/-- Round-half-to-even to an integer, the rounding of Python's builtin `round`. -/
def roundHalfEven (q : ℚ) : Int :=
  let f := Rat.floor q
  let frac := q - (f : ℚ)
  if frac < 1 / 2 then f
  else if 1 / 2 < frac then f + 1
  else if f % 2 = 0 then f else f + 1

/-- `round(x, 1)`. -/
def roundTo1 (q : ℚ) : ℚ := (roundHalfEven (q * 10) : ℚ) / 10

structure DailySummary where
  date : String
  total_feedings : Nat
  total_volume_ml : Int
  average_volume_ml : ℚ
  last_feeding_time : String
deriving DecidableEq

/-- `get_daily_summary()`: aggregate over today's UTC+8 window.  SQL `SUM` is NULL
exactly when no row matches, and then `total_vol or 0` yields 0, which coincides with
the empty sum; `round(avg_vol, 1) if avg_vol else 0` maps both NULL and a zero average
to 0. -/
def get_daily_summary (now : DateTime) (db : DB) : DailySummary :=
  let rows := db.feedings.filter (fun r => inTodayWindow now r.timestamp)
  let count := rows.length
  let total : Int := (rows.map (fun r => r.payload.amount_ml)).sum
  let avg : ℚ := if count = 0 then 0 else (total : ℚ) / (count : ℚ)
  { date := formatDate now
  , total_feedings := count
  , total_volume_ml := total
  , average_volume_ml := if avg = 0 then 0 else roundTo1 avg
  , last_feeding_time :=
      match topRow db.feedings with
      | some r => r.timestamp
      | none => "None" }

/-- Result of `get_last_feeding_info`: either the error dict or the record dict; in the
record, `minutes_since` and `current_time` are absent when the elapsed-time computation
failed and `description` then holds the sentinel. -/
inductive LastFeedingResult where
  | err (msg : String)
  | info (timestamp : String) (amount_ml : Int) (feeding_type : String)
      (minutes_since : Option Int) (description : String) (current_time : Option String)
deriving DecidableEq

/-- The `minutes_since` field of a `get_last_feeding_info` result, when present. -/
def minutesOf : LastFeedingResult → Option Int
  | .err _ => none
  | .info _ _ _ m _ _ => m

/-- The localized elapsed description: Python `//` and `%` are floor division and
floor remainder on ints. -/
def elapsedDescription (minutes_total : Int) : String :=
  let hours := Int.fdiv minutes_total 60
  let mins := Int.emod minutes_total 60
  if 0 < hours then toString hours ++ "小时" ++ toString mins ++ "分钟前"
  else toString mins ++ "分钟前"

/-- `get_last_feeding_info()`.  `int(diff.total_seconds() / 60)` truncates toward
zero, which on whole-second differences is `Int.tdiv` by 60. -/
def get_last_feeding_info (now : DateTime) (db : DB) : LastFeedingResult :=
  match topRow db.feedings with
  | none => .err "No feeding records found."
  | some r =>
    match parseTimestamp r.timestamp with
    | none => .info r.timestamp r.payload.amount_ml r.payload.feeding_type
        none "时间计算错误" none
    | some t =>
      let minutes_total := Int.tdiv (toSecs now - toSecs t) 60
      .info r.timestamp r.payload.amount_ml r.payload.feeding_type
        (some minutes_total) (elapsedDescription minutes_total)
        (some (formatDateTime now))

/-- `delete_last_feeding()`: one DELETE keyed on the top-ranked row's id, then a fixed
success message (also when the log was empty and nothing matched). -/
def delete_last_feeding (db : DB) : DB × String :=
  ({ db with feedings := removeTop db.feedings },
   "Successfully deleted last feeding record.")

/-- `record_diaper_change(diaper_type, timestamp)`, the mirror of `record_feeding`. -/
def record_diaper_change (now : DateTime) (diaper_type : String) (timestamp : String)
    (db : DB) : DB × String :=
  if timestamp = "" then
    let ts := formatDateTime now
    ({ db with
        diapers := db.diapers ++ [⟨db.nextDiaperId, ts, diaper_type⟩],
        nextDiaperId := db.nextDiaperId + 1 },
     "Successfully recorded diaper change (" ++ diaper_type ++ ") at " ++ ts ++ ".")
  else
    match parseTimestamp timestamp with
    | none => (db, "Error recording diaper change: time data does not match format")
    | some _ =>
      ({ db with
          diapers := db.diapers ++ [⟨db.nextDiaperId, timestamp, diaper_type⟩],
          nextDiaperId := db.nextDiaperId + 1 },
       "Successfully recorded diaper change (" ++ diaper_type ++ ") at " ++ timestamp ++ ".")

/-- First-occurrence duplicate removal, the iteration order of the GROUP BY groups in
the model (SQLite leaves that order unspecified). -/
def dedupFirst (seen : List String) : List String → List String
  | [] => []
  | t :: ts => if t ∈ seen then dedupFirst seen ts else t :: dedupFirst (t :: seen) ts

/-- `COUNT(*)` of one GROUP BY group. -/
def cntType (t : String) (l : List String) : Nat := (l.filter (fun x => x = t)).length

/-- The `diaper_type` values of today's diaper rows, in insertion order. -/
def todaysDiaperTypes (now : DateTime) (db : DB) : List String :=
  (db.diapers.filter (fun r => inTodayWindow now r.timestamp)).map Row.payload

structure DiaperSummary where
  date : String
  total_changes : Nat
  counts : List (String × Nat)
  last_change_time : String
deriving DecidableEq

/-- `get_daily_diaper_summary()`: GROUP BY `diaper_type` over today's window, the dict
of per-type counts, and `total = sum(stats.values())`. -/
def get_daily_diaper_summary (now : DateTime) (db : DB) : DiaperSummary :=
  let tl := todaysDiaperTypes now db
  { date := formatDate now
  , total_changes := ((dedupFirst [] tl).map (fun t => cntType t tl)).sum
  , counts := (dedupFirst [] tl).map (fun t => (t, cntType t tl))
  , last_change_time :=
      match topRow db.diapers with
      | some r => r.timestamp
      | none => "None" }

/-- `delete_last_diaper_change()`, the mirror of `delete_last_feeding`. -/
def delete_last_diaper_change (db : DB) : DB × String :=
  ({ db with diapers := removeTop db.diapers },
   "Successfully deleted last diaper change record.")

/-- Modelled from the spec: `get_recent_feedings` is invoked by the repository's test
file but its definition is missing from the sources; per the spec it "Returns up to
`limit` FeedingEvent records ordered by timestamp descending; fewer returned if the log
has fewer rows; empty list (not an error) if the log is empty", i.e. it is
`SELECT ... ORDER BY timestamp DESC LIMIT ?`. -/
def get_recent_feedings (limit : Nat) (db : DB) : List FeedingRow :=
  (sortDesc db.feedings).take limit

/-- Modelled from the spec: `get_recent_diaper_changes`, the missing mirror of
`get_recent_feedings` on the diaper log. -/
def get_recent_diaper_changes (limit : Nat) (db : DB) : List DiaperRow :=
  (sortDesc db.diapers).take limit

/-- Fold of `record_feeding` over a list of (timestamp, amount_ml, feeding_type)
events, keeping only the store state. -/
def recordFeedings (now : DateTime) (evs : List (String × Int × String)) (db : DB) : DB :=
  evs.foldl (fun d e => (record_feeding now e.2.1 e.2.2 e.1 d).1) db

/-- The rows that a run of successful `record_feeding` calls appends, with ids counting
up from `n`. -/
def buildRows (n : Nat) : List (String × Int × String) → List FeedingRow
  | [] => []
  | e :: es => ⟨n, e.1, ⟨e.2.1, e.2.2⟩⟩ :: buildRows (n + 1) es

/-- A store reached by two same-second `record_feeding` calls: both rows carry the
identical timestamp string. -/
def tieDB : DB :=
  (record_feeding ⟨2024, 5, 1, 8, 0, 0⟩ 200 "formula" "2024-05-01 08:00:00"
    (record_feeding ⟨2024, 5, 1, 8, 0, 0⟩ 150 "formula" "2024-05-01 08:00:00" emptyDB).1).1

/-- A store whose single feeding is dated 30 seconds after the clock used to query it. -/
def futureDB : DB :=
  (record_feeding ⟨2024, 5, 1, 8, 0, 0⟩ 150 "formula" "2024-05-01 08:00:30" emptyDB).1

/-- The spec's diaper scenario: one `pee`, one `poop`, one `both`, all recorded on the
same UTC+8 civil day. -/
def diaperScenarioDB : DB :=
  (record_diaper_change ⟨2024, 5, 1, 13, 0, 0⟩ "both" "2024-05-01 11:00:00"
    (record_diaper_change ⟨2024, 5, 1, 13, 0, 0⟩ "poop" "2024-05-01 10:00:00"
      (record_diaper_change ⟨2024, 5, 1, 13, 0, 0⟩ "pee" "2024-05-01 09:00:00" emptyDB).1).1).1

/-! ### Order facts about the binary collation -/

theorem charListLe_refl (a : List Char) : charListLe a a = true := by
  induction a with
  | nil => rfl
  | cons x xs ih => simp [charListLe, ih]

theorem charListLe_total (a : List Char) : ∀ b, charListLe a b = true ∨ charListLe b a = true := by
  induction a with
  | nil => intro b; left; rfl
  | cons x xs ih =>
    intro b
    cases b with
    | nil => right; rfl
    | cons y ys =>
      rcases lt_trichotomy x y with h | h | h
      · left; simp [charListLe, h]
      · subst h
        rcases ih ys with h' | h'
        · left; simp [charListLe, h']
        · right; simp [charListLe, h']
      · right; simp [charListLe, h]

theorem charListLe_trans {a : List Char} :
    ∀ {b c : List Char}, charListLe a b = true → charListLe b c = true →
      charListLe a c = true := by
  induction a with
  | nil => intro b c _ _; rfl
  | cons x xs ih =>
    intro b c h1 h2
    cases b with
    | nil => simp [charListLe] at h1
    | cons y ys =>
      cases c with
      | nil => simp [charListLe] at h2
      | cons z zs =>
        simp only [charListLe, Bool.or_eq_true, Bool.and_eq_true, beq_iff_eq,
          decide_eq_true_eq] at h1 h2 ⊢
        rcases h1 with h1 | ⟨rfl, h1⟩
        · rcases h2 with h2 | ⟨rfl, h2⟩
          · exact Or.inl (lt_trans h1 h2)
          · exact Or.inl h1
        · rcases h2 with h2 | ⟨rfl, h2⟩
          · exact Or.inl h2
          · exact Or.inr ⟨rfl, ih h1 h2⟩

theorem strLe_refl (s : String) : strLe s s = true := charListLe_refl s.data

theorem strLe_total (a b : String) : strLe a b = true ∨ strLe b a = true :=
  charListLe_total a.data b.data

theorem strLe_trans {a b c : String} (h1 : strLe a b = true) (h2 : strLe b c = true) :
    strLe a c = true := charListLe_trans h1 h2

instance {α : Type} : IsTotal (Row α) rowDesc :=
  ⟨fun a b => (strLe_total b.timestamp a.timestamp).elim Or.inl Or.inr⟩

instance {α : Type} : IsTrans (Row α) rowDesc :=
  ⟨fun _ _ _ h1 h2 => strLe_trans h2 h1⟩

instance {α : Type} : IsRefl (Row α) rowDesc := ⟨fun a => strLe_refl a.timestamp⟩

/-! ### Facts about `sortDesc` and `topRow` -/

theorem sortDesc_perm {α : Type} (l : List (Row α)) : List.Perm (sortDesc l) l :=
  List.perm_insertionSort rowDesc l

theorem sortDesc_sorted {α : Type} (l : List (Row α)) : (sortDesc l).Sorted rowDesc :=
  List.sorted_insertionSort rowDesc l

theorem sortDesc_length {α : Type} (l : List (Row α)) : (sortDesc l).length = l.length :=
  List.length_insertionSort rowDesc l

theorem sortDesc_nil_iff {α : Type} (l : List (Row α)) : sortDesc l = [] ↔ l = [] := by
  constructor
  · intro h
    exact List.Perm.eq_nil (h ▸ (sortDesc_perm l).symm)
  · intro h; subst h; rfl

theorem topRow_none_iff {α : Type} (l : List (Row α)) : topRow l = none ↔ l = [] := by
  rw [topRow, List.head?_eq_none_iff, sortDesc_nil_iff]

theorem topRow_some_of_ne {α : Type} {l : List (Row α)} (h : l ≠ []) :
    ∃ r, topRow l = some r := by
  cases htop : topRow l with
  | none => exact absurd ((topRow_none_iff l).mp htop) h
  | some r => exact ⟨r, rfl⟩

theorem topRow_cons {α : Type} {l : List (Row α)} {r : Row α} (h : topRow l = some r) :
    ∃ t, sortDesc l = r :: t := by
  cases hs : sortDesc l with
  | nil => rw [topRow, hs] at h; cases h
  | cons a t =>
    rw [topRow, hs] at h
    cases h
    exact ⟨t, rfl⟩

theorem topRow_mem {α : Type} {l : List (Row α)} {r : Row α} (h : topRow l = some r) :
    r ∈ l := by
  obtain ⟨t, ht⟩ := topRow_cons h
  have : r ∈ sortDesc l := by rw [ht]; exact List.mem_cons_self r t
  exact (sortDesc_perm l).mem_iff.mp this

theorem topRow_max {α : Type} {l : List (Row α)} {r : Row α} (h : topRow l = some r) :
    ∀ x ∈ l, strLe x.timestamp r.timestamp = true := by
  obtain ⟨t, ht⟩ := topRow_cons h
  have hsorted : (r :: t).Sorted rowDesc := ht ▸ sortDesc_sorted l
  intro x hx
  have : x ∈ r :: t := ht ▸ (sortDesc_perm l).mem_iff.mpr hx
  rcases List.mem_cons.mp this with rfl | hmem
  · exact strLe_refl x.timestamp
  · exact List.rel_of_sorted_cons hsorted x hmem

/-! ### Deleting the top-ranked row -/

theorem filter_ne_id_eq_erase {α : Type} [DecidableEq α] {l : List (Row α)} {r : Row α}
    (hmem : r ∈ l) (hnd : (l.map Row.id).Nodup) :
    (l.filter fun x => x.id ≠ r.id) = l.erase r := by
  induction l with
  | nil => cases hmem
  | cons a t ih =>
    rw [List.map_cons, List.nodup_cons] at hnd
    rcases List.mem_cons.mp hmem with heq | hmem'
    · subst heq
      rw [List.erase_cons_head]
      have hfilter : ∀ x ∈ t, (decide (x.id ≠ r.id)) = true := by
        intro x hx
        simp only [decide_eq_true_eq, ne_eq]
        intro hid
        exact hnd.1 (hid ▸ List.mem_map_of_mem Row.id hx)
      simp only [List.filter_cons, ne_eq, not_true_eq_false, decide_False]
      simp only [Bool.false_eq_true, if_false]
      exact List.filter_eq_self.mpr hfilter
    · have hane : a.id ≠ r.id := by
        intro hid
        exact hnd.1 (hid ▸ List.mem_map_of_mem Row.id hmem')
      have hbe : ¬ (a == r) := by
        simp only [beq_iff_eq]
        intro h; exact hane (h ▸ rfl)
      rw [List.erase_cons_tail hbe, List.filter_cons, if_pos (by simpa using hane)]
      rw [ih hmem' hnd.2]

theorem removeTop_top {α : Type} [DecidableEq α] {l : List (Row α)} {r : Row α}
    (h : topRow l = some r) (hnd : (l.map Row.id).Nodup) :
    removeTop l = l.erase r ∧ (removeTop l).length + 1 = l.length := by
  have hmem := topRow_mem h
  have herase : removeTop l = l.erase r := by
    rw [removeTop, h]
    exact filter_ne_id_eq_erase hmem hnd
  refine ⟨herase, ?_⟩
  rw [herase, List.length_erase_of_mem hmem]
  have : 1 ≤ l.length := List.length_pos.mpr (List.ne_nil_of_mem hmem)
  omega

/-! ### Runs of successful `record_feeding` calls -/

theorem parseTimestamp_empty : parseTimestamp "" = none := rfl

theorem record_feeding_parsed {now : DateTime} {amount_ml : Int} {feeding_type ts : String}
    {db : DB} {t : DateTime} (h : parseTimestamp ts = some t) :
    record_feeding now amount_ml feeding_type ts db =
      ({ db with
          feedings := db.feedings ++ [⟨db.nextFeedingId, ts, ⟨amount_ml, feeding_type⟩⟩],
          nextFeedingId := db.nextFeedingId + 1 },
       feedingSuccessMsg amount_ml feeding_type ts) := by
  have hne : ts ≠ "" := by
    intro he
    rw [he, parseTimestamp_empty] at h
    cases h
  rw [record_feeding, if_neg hne, h]

theorem recordFeedings_feedings (now : DateTime) (evs : List (String × Int × String)) :
    ∀ db : DB, (∀ e ∈ evs, parseTimestamp e.1 ≠ none) →
      (recordFeedings now evs db).feedings = db.feedings ++ buildRows db.nextFeedingId evs := by
  induction evs with
  | nil => intro db _; simp [recordFeedings, buildRows]
  | cons e es ih =>
    intro db h
    obtain ⟨t, ht⟩ := Option.ne_none_iff_exists'.mp (h e (List.mem_cons_self e es))
    have step : recordFeedings now (e :: es) db =
        recordFeedings now es (record_feeding now e.2.1 e.2.2 e.1 db).1 := by
      simp [recordFeedings]
    rw [step, record_feeding_parsed ht]
    rw [ih _ (fun e' he' => h e' (List.mem_cons_of_mem e he'))]
    simp [buildRows, List.append_assoc]

theorem buildRows_map_timestamp (evs : List (String × Int × String)) :
    ∀ n, (buildRows n evs).map Row.timestamp = evs.map (fun e => e.1) := by
  induction evs with
  | nil => intro n; rfl
  | cons e es ih => intro n; simp [buildRows, ih]

theorem buildRows_map_amount (evs : List (String × Int × String)) :
    ∀ n, (buildRows n evs).map (fun r => r.payload.amount_ml) = evs.map (fun e => e.2.1) := by
  induction evs with
  | nil => intro n; rfl
  | cons e es ih => intro n; simp [buildRows, ih]

theorem buildRows_length (evs : List (String × Int × String)) :
    ∀ n, (buildRows n evs).length = evs.length := by
  induction evs with
  | nil => intro n; rfl
  | cons e es ih => intro n; simp [buildRows, ih]

theorem buildRows_timestamp_mem {evs : List (String × Int × String)} {n : Nat}
    {r : FeedingRow} (h : r ∈ buildRows n evs) : r.timestamp ∈ evs.map (fun e => e.1) := by
  rw [← buildRows_map_timestamp evs n]
  exact List.mem_map_of_mem Row.timestamp h

/-! ### Counting the GROUP BY groups -/

theorem mem_dedupFirst {t : String} : ∀ {l seen : List String},
    t ∈ dedupFirst seen l ↔ t ∈ l ∧ t ∉ seen := by
  intro l
  induction l with
  | nil => intro seen; simp [dedupFirst]
  | cons a as ih =>
    intro seen
    by_cases ha : a ∈ seen
    · rw [dedupFirst, if_pos ha, ih]
      constructor
      · rintro ⟨hmem, hns⟩
        exact ⟨List.mem_cons_of_mem a hmem, hns⟩
      · rintro ⟨hmem, hns⟩
        rcases List.mem_cons.mp hmem with rfl | hmem'
        · exact absurd ha hns
        · exact ⟨hmem', hns⟩
    · rw [dedupFirst, if_neg ha]
      constructor
      · intro hmem
        rcases List.mem_cons.mp hmem with rfl | hmem'
        · exact ⟨List.mem_cons_self t as, ha⟩
        · obtain ⟨h1, h2⟩ := ih.mp hmem'
          refine ⟨List.mem_cons_of_mem a h1, fun hs => h2 (List.mem_cons_of_mem a hs)⟩
      · rintro ⟨hmem, hns⟩
        rcases List.mem_cons.mp hmem with rfl | hmem'
        · exact List.mem_cons_self t _
        · by_cases hta : t = a
          · subst hta; exact List.mem_cons_self t _
          · exact List.mem_cons_of_mem a
              (ih.mpr ⟨hmem', fun hs => (List.mem_cons.mp hs).elim hta hns⟩)

theorem length_filter_split (p q : String → Bool) (l : List String) :
    (l.filter p).length =
      (l.filter fun x => p x && q x).length + (l.filter fun x => p x && !q x).length := by
  induction l with
  | nil => rfl
  | cons a as ih =>
    by_cases hp : p a
    · by_cases hq : q a
      · simp [List.filter_cons, hp, hq, ih]; omega
      · simp only [Bool.not_eq_true] at hq
        simp [List.filter_cons, hp, hq, ih]; omega
    · simp only [Bool.not_eq_true] at hp
      simp [List.filter_cons, hp, ih]

theorem cntType_cons (t a : String) (l : List String) :
    cntType t (a :: l) = (if a = t then 1 else 0) + cntType t l := by
  by_cases h : a = t
  · simp [cntType, List.filter_cons, h]; omega
  · simp [cntType, List.filter_cons, h]

theorem dedupFirst_sum : ∀ (l seen : List String),
    ((dedupFirst seen l).map (fun t => cntType t l)).sum =
      (l.filter fun x => decide (x ∉ seen)).length := by
  intro l
  induction l with
  | nil => intro seen; rfl
  | cons a as ih =>
    intro seen
    have hcnt : ∀ seen' : List String, a ∈ seen' →
        ((dedupFirst seen' as).map (fun t => cntType t (a :: as))).sum =
          ((dedupFirst seen' as).map (fun t => cntType t as)).sum := by
      intro seen' ha
      refine congrArg List.sum (List.map_congr_left ?_)
      intro t ht
      have hta : t ≠ a := by
        intro h
        exact (mem_dedupFirst.mp ht).2 (h ▸ ha)
      rw [cntType_cons, if_neg (fun h => hta h.symm)]
      omega
    by_cases ha : a ∈ seen
    · rw [dedupFirst, if_pos ha, hcnt seen ha, ih]
      rw [List.filter_cons]
      simp [ha]
    · rw [dedupFirst, if_neg ha]
      rw [List.map_cons, List.sum_cons]
      rw [hcnt (a :: seen) (List.mem_cons_self a seen)]
      rw [ih (a :: seen)]
      rw [cntType_cons a a as, if_pos rfl]
      have hsplit := length_filter_split (fun x => decide (x ∉ seen)) (fun x => decide (x = a)) as
      have e1 : (as.filter fun x => decide (x ∉ seen) && decide (x = a)).length = cntType a as := by
        unfold cntType
        refine congrArg List.length (List.filter_congr ?_)
        intro x _
        by_cases hx : x = a
        · subst hx; simp [ha]
        · simp [hx]
      have e2 : (as.filter fun x => decide (x ∉ seen) && !(decide (x = a))) =
          (as.filter fun x => decide (x ∉ a :: seen)) := by
        refine List.filter_congr ?_
        intro x _
        by_cases hx : x = a
        · subst hx; simp
        · by_cases hs : x ∈ seen <;> simp [hx, hs]
      have hfin : (as.filter fun x => decide (x ∉ seen)).length =
          cntType a as + (as.filter fun x => decide (x ∉ a :: seen)).length := by
        rw [hsplit, e1, e2]
      rw [List.filter_cons]
      simp only [ha, not_false_eq_true, decide_True, if_true, List.length_cons]
      omega

/-! ### Claim theorems -/

/-- C8: the schema-ensure initialization `init_db` is idempotent: on a store in which
both logs already exist it is a no-op — it leaves the store unchanged, never drops
existing rows, and running it twice equals running it once. -/
theorem init_db_idempotent (s : Store) (lf : List FeedingRow) (ld : List DiaperRow)
    (hf : s.feedingsTable = some lf) (hd : s.diapersTable = some ld) :
    init_db s = s ∧
    init_db (init_db s) = init_db s ∧
    (init_db s).feedingsTable = some lf ∧
    (init_db s).diapersTable = some ld := by
  have h1 : init_db s = s := by
    cases s
    simp only [init_db] at *
    rw [hf, hd]
    simp_all [Option.getD]
  refine ⟨h1, ?_, ?_, ?_⟩
  · rw [h1]; exact h1
  · rw [h1, hf]
  · rw [h1, hd]

theorem init_db_idempotent_witness :
    init_db (Store.mk (some []) (some [])) = Store.mk (some []) (some []) :=
  (init_db_idempotent (Store.mk (some []) (some [])) [] [] rfl rfl).1

/-- C10: `delete_last_feeding` and `delete_last_diaper_change` return the very same
success string on every store state, so the caller cannot tell a real deletion from the
empty-log no-op by the operation's return value. -/
theorem delete_result_indistinguishable (db : DB) :
    (delete_last_feeding db).2 = "Successfully deleted last feeding record." ∧
    (delete_last_diaper_change db).2 = "Successfully deleted last diaper change record." :=
  ⟨rfl, rfl⟩

/-- C3: a `record_feeding` call whose supplied (non-empty) timestamp does not parse as
`YYYY-MM-DD HH:MM:SS` returns the validation-error string and leaves the store — in
particular the feeding log's contents — unchanged. -/
theorem record_feeding_invalid_timestamp (now : DateTime) (db : DB) (amount_ml : Int)
    (feeding_type ts : String) (hne : ts ≠ "") (hbad : parseTimestamp ts = none) :
    record_feeding now amount_ml feeding_type ts db = (db, feedingErrorMsg) ∧
    (record_feeding now amount_ml feeding_type ts db).1.feedings = db.feedings := by
  have h : record_feeding now amount_ml feeding_type ts db = (db, feedingErrorMsg) := by
    rw [record_feeding, if_neg hne, hbad]
  exact ⟨h, by rw [h]⟩

theorem record_feeding_invalid_timestamp_witness :
    record_feeding ⟨2024, 5, 1, 12, 0, 0⟩ 150 "formula" "not-a-date" emptyDB =
      (emptyDB, feedingErrorMsg) :=
  (record_feeding_invalid_timestamp ⟨2024, 5, 1, 12, 0, 0⟩ emptyDB 150 "formula"
    "not-a-date" (by decide) (by decide)).1

/-- C5: `get_last_feeding_info` returns the explicit "no records" error exactly on the
empty feeding log; on a non-empty log it never returns an error result, and when the
stored timestamp of the most recent row fails to parse, that row is still returned with
the sentinel description and without the derived fields. -/
theorem last_feeding_info_error_cases (now : DateTime) (db : DB) :
    (db.feedings = [] → get_last_feeding_info now db = .err "No feeding records found.") ∧
    (∀ r : FeedingRow, topRow db.feedings = some r → parseTimestamp r.timestamp = none →
      get_last_feeding_info now db =
        .info r.timestamp r.payload.amount_ml r.payload.feeding_type none "时间计算错误" none) ∧
    (db.feedings ≠ [] → ∀ msg, get_last_feeding_info now db ≠ .err msg) := by
  refine ⟨?_, ?_, ?_⟩
  · intro h
    have hm : topRow db.feedings = none := (topRow_none_iff db.feedings).mpr h
    simp [get_last_feeding_info, hm]
  · intro r htop hparse
    simp [get_last_feeding_info, htop, hparse]
  · intro h msg
    obtain ⟨r, hr⟩ := topRow_some_of_ne h
    cases hp : parseTimestamp r.timestamp with
    | none => simp [get_last_feeding_info, hr, hp]
    | some t => simp [get_last_feeding_info, hr, hp]

theorem last_feeding_info_error_cases_witness :
    get_last_feeding_info ⟨2024, 5, 1, 12, 0, 0⟩ emptyDB = .err "No feeding records found." ∧
    get_last_feeding_info ⟨2024, 5, 1, 12, 0, 0⟩ ⟨[⟨1, "garbage", ⟨100, "formula"⟩⟩], [], 2, 1⟩ =
      .info "garbage" 100 "formula" none "时间计算错误" none :=
  ⟨(last_feeding_info_error_cases ⟨2024, 5, 1, 12, 0, 0⟩ emptyDB).1 rfl,
   (last_feeding_info_error_cases ⟨2024, 5, 1, 12, 0, 0⟩
      ⟨[⟨1, "garbage", ⟨100, "formula"⟩⟩], [], 2, 1⟩).2.1
     ⟨1, "garbage", ⟨100, "formula"⟩⟩ (by decide) (by decide)⟩

/-- C4: on the empty log `delete_last_feeding` is a successful no-op; on a non-empty log
(with the store-maintained distinct ids) it removes exactly the row ranked first by the
descending-timestamp ordering, shrinking the log by one row; `delete_last_diaper_change`
behaves likewise on the diaper log. -/
theorem delete_last_removes_top (db : DB)
    (hf : (db.feedings.map Row.id).Nodup) (hd : (db.diapers.map Row.id).Nodup) :
    (db.feedings = [] →
      delete_last_feeding db = (db, "Successfully deleted last feeding record.")) ∧
    (db.feedings ≠ [] → ∃ r, topRow db.feedings = some r) ∧
    (∀ r : FeedingRow, topRow db.feedings = some r →
      r ∈ db.feedings ∧
      (∀ x ∈ db.feedings, strLe x.timestamp r.timestamp = true) ∧
      (delete_last_feeding db).1.feedings = db.feedings.erase r ∧
      (delete_last_feeding db).1.feedings.length + 1 = db.feedings.length) ∧
    (db.diapers = [] →
      delete_last_diaper_change db = (db, "Successfully deleted last diaper change record.")) ∧
    (db.diapers ≠ [] → ∃ r, topRow db.diapers = some r) ∧
    (∀ r : DiaperRow, topRow db.diapers = some r →
      r ∈ db.diapers ∧
      (∀ x ∈ db.diapers, strLe x.timestamp r.timestamp = true) ∧
      (delete_last_diaper_change db).1.diapers = db.diapers.erase r ∧
      (delete_last_diaper_change db).1.diapers.length + 1 = db.diapers.length) := by
  refine ⟨?_, fun h => topRow_some_of_ne h, ?_, ?_, fun h => topRow_some_of_ne h, ?_⟩
  · intro h
    cases db
    simp_all [delete_last_feeding, removeTop, topRow, sortDesc]
  · intro r htop
    obtain ⟨he, hl⟩ := removeTop_top htop hf
    exact ⟨topRow_mem htop, topRow_max htop, he, hl⟩
  · intro h
    cases db
    simp_all [delete_last_diaper_change, removeTop, topRow, sortDesc]
  · intro r htop
    obtain ⟨he, hl⟩ := removeTop_top htop hd
    exact ⟨topRow_mem htop, topRow_max htop, he, hl⟩

theorem delete_last_removes_top_witness :
    delete_last_feeding emptyDB = (emptyDB, "Successfully deleted last feeding record.") ∧
    (delete_last_feeding
        (DB.mk [⟨1, "2024-05-01 08:00:00", ⟨150, "formula"⟩⟩] [] 2 1)).1.feedings.length + 1 =
      (DB.mk [⟨1, "2024-05-01 08:00:00", ⟨150, "formula"⟩⟩] [] 2 1).feedings.length :=
  ⟨(delete_last_removes_top emptyDB (by decide) (by decide)).1 rfl,
   ((delete_last_removes_top (DB.mk [⟨1, "2024-05-01 08:00:00", ⟨150, "formula"⟩⟩] [] 2 1)
      (by decide) (by decide)).2.2.1 ⟨1, "2024-05-01 08:00:00", ⟨150, "formula"⟩⟩
      (by decide)).2.2.2⟩

/-- C1 (amended): `get_recent_feedings(limit=k)` returns `min k n` of the `n` stored
records, ordered by timestamp descending — non-strictly, since rows recorded in the
same second carry equal timestamps — and the empty log yields the empty list, not an
error; `get_recent_diaper_changes` behaves likewise. -/
theorem get_recent_ordered (k : Nat) (db : DB) :
    (get_recent_feedings k db).length = min k db.feedings.length ∧
    ((get_recent_feedings k db).map Row.timestamp).Pairwise (fun a b => strLe b a = true) ∧
    (db.feedings = [] → get_recent_feedings k db = []) ∧
    (get_recent_diaper_changes k db).length = min k db.diapers.length ∧
    ((get_recent_diaper_changes k db).map Row.timestamp).Pairwise
      (fun a b => strLe b a = true) ∧
    (db.diapers = [] → get_recent_diaper_changes k db = []) := by
  have key : ∀ {α : Type} (l : List (Row α)),
      ((sortDesc l).take k).length = min k l.length ∧
      (((sortDesc l).take k).map Row.timestamp).Pairwise (fun a b => strLe b a = true) ∧
      (l = [] → (sortDesc l).take k = []) := by
    intro α l
    refine ⟨?_, ?_, ?_⟩
    · rw [List.length_take, sortDesc_length]
    · have hsorted : ((sortDesc l).take k).Pairwise rowDesc :=
        (sortDesc_sorted l).sublist (List.take_sublist k (sortDesc l))
      exact List.Pairwise.map Row.timestamp (fun a b h => h) hsorted
    · intro h; subst h; simp [sortDesc]
  exact ⟨(key db.feedings).1, (key db.feedings).2.1, (key db.feedings).2.2,
         (key db.diapers).1, (key db.diapers).2.1, (key db.diapers).2.2⟩

theorem get_recent_ordered_witness :
    get_recent_feedings 5 emptyDB = [] ∧ get_recent_diaper_changes 5 emptyDB = [] :=
  ⟨(get_recent_ordered 5 emptyDB).2.2.1 rfl, (get_recent_ordered 5 emptyDB).2.2.2.2.2 rfl⟩

/-- C1 (counterexample): after two same-second `record_feeding` calls the recent-feeding
list repeats the identical timestamp, so it is not ordered by timestamp STRICTLY
descending as the claim states. -/
theorem get_recent_strict_counterexample :
    (get_recent_feedings 5 tieDB).map Row.timestamp =
      ["2024-05-01 08:00:00", "2024-05-01 08:00:00"] ∧
    ¬ ((get_recent_feedings 5 tieDB).map Row.timestamp).Pairwise
        (fun a b => strLt b a = true) := by
  constructor
  · decide
  · decide

/-- C6 (amended): on a non-empty feeding log, `minutes_since` is the difference in
minutes between the current UTC+8 civil time and the most recent row's parsed
timestamp, TRUNCATED TOWARD ZERO (Python `int()`), which coincides with the floor
exactly when the difference is non-negative. -/
theorem minutes_since_truncates (now : DateTime) (db : DB) (r : FeedingRow) (t : DateTime)
    (htop : topRow db.feedings = some r) (hparse : parseTimestamp r.timestamp = some t) :
    minutesOf (get_last_feeding_info now db) =
      some (Int.tdiv (toSecs now - toSecs t) 60) ∧
    (toSecs t ≤ toSecs now →
      Int.tdiv (toSecs now - toSecs t) 60 = Int.fdiv (toSecs now - toSecs t) 60) := by
  constructor
  · simp [get_last_feeding_info, htop, hparse, minutesOf]
  · intro hle
    have h0 : 0 ≤ toSecs now - toSecs t := sub_nonneg.mpr hle
    rw [Int.tdiv_eq_ediv, Int.fdiv_eq_ediv] <;> omega

theorem minutes_since_truncates_witness :
    minutesOf (get_last_feeding_info ⟨2024, 5, 1, 9, 30, 0⟩
      (record_feeding ⟨2024, 5, 1, 9, 30, 0⟩ 150 "formula" "2024-05-01 08:00:00" emptyDB).1) =
      some 90 :=
  (minutes_since_truncates ⟨2024, 5, 1, 9, 30, 0⟩
    (record_feeding ⟨2024, 5, 1, 9, 30, 0⟩ 150 "formula" "2024-05-01 08:00:00" emptyDB).1
    ⟨1, "2024-05-01 08:00:00", ⟨150, "formula"⟩⟩ ⟨2024, 5, 1, 8, 0, 0⟩
    (by decide) (by decide)).1.trans (by decide)

/-- C6 (counterexample): with the most recent feeding dated 30 seconds in the future of
the querying clock, the code returns `minutes_since = 0` (truncation toward zero of
-30/60 seconds), while the integer floor of the difference in minutes is -1; so
`minutes_since` is not the floor on negative differences. -/
theorem minutes_since_not_floor_counterexample :
    minutesOf (get_last_feeding_info ⟨2024, 5, 1, 8, 0, 0⟩ futureDB) = some 0 ∧
    parseTimestamp "2024-05-01 08:00:30" = some ⟨2024, 5, 1, 8, 0, 30⟩ ∧
    toSecs ⟨2024, 5, 1, 8, 0, 0⟩ - toSecs ⟨2024, 5, 1, 8, 0, 30⟩ = -30 ∧
    Int.fdiv (-30) 60 = -1 ∧
    some (0 : Int) ≠ some (-1 : Int) := by
  refine ⟨by decide, by decide, by decide, by decide, by decide⟩

/-- C9 (counterexample): `record_feeding` performs no sign validation — a call with
amount -50 and a well-formed timestamp persists a feeding event whose stored
`amount_ml` is negative, refuting the non-negativity invariant. -/
theorem amount_nonneg_counterexample :
    ((record_feeding ⟨2024, 5, 1, 8, 0, 0⟩ (-50) "formula" "2024-05-01 08:00:00"
        emptyDB).1.feedings.map (fun r => r.payload.amount_ml)) = [-50] ∧
    ¬ ((0 : Int) ≤ -50) := by
  refine ⟨by decide, by decide⟩

/-- C9 (amended): `record_feeding` persists the event with `amount_ml` exactly equal to
the supplied argument, whatever its sign; stored amounts are therefore non-negative
precisely as long as every caller supplies a non-negative amount. -/
theorem record_feeding_amount_unvalidated (now : DateTime) (db : DB) (amount_ml : Int)
    (feeding_type ts : String) (t : DateTime) (hparse : parseTimestamp ts = some t) :
    (record_feeding now amount_ml feeding_type ts db).1.feedings =
      db.feedings ++ [⟨db.nextFeedingId, ts, ⟨amount_ml, feeding_type⟩⟩] ∧
    ((∀ r ∈ db.feedings, 0 ≤ r.payload.amount_ml) → 0 ≤ amount_ml →
      ∀ r ∈ (record_feeding now amount_ml feeding_type ts db).1.feedings,
        0 ≤ r.payload.amount_ml) := by
  rw [record_feeding_parsed hparse]
  refine ⟨rfl, ?_⟩
  intro hall hpos r hr
  rcases List.mem_append.mp hr with hin | hnew
  · exact hall r hin
  · rcases List.mem_singleton.mp hnew with rfl
    exact hpos

theorem record_feeding_amount_unvalidated_witness :
    (record_feeding ⟨2024, 5, 1, 8, 0, 0⟩ 150 "formula" "2024-05-01 08:00:00"
        emptyDB).1.feedings =
      [⟨1, "2024-05-01 08:00:00", ⟨150, "formula"⟩⟩] :=
  (record_feeding_amount_unvalidated ⟨2024, 5, 1, 8, 0, 0⟩ emptyDB 150 "formula"
    "2024-05-01 08:00:00" ⟨2024, 5, 1, 8, 0, 0⟩ (by decide)).1

/-! ### Daily feeding summary -/

theorem roundHalfEven_intCast (n : ℤ) : roundHalfEven (n : ℚ) = n := by
  simp [roundHalfEven, show Rat.floor (n : ℚ) = n from rfl]

theorem roundTo1_zero : roundTo1 0 = 0 := by
  have h0 : ((0 : ℚ) * 10) = ((0 : ℤ) : ℚ) := by norm_num
  rw [roundTo1, h0, roundHalfEven_intCast]
  norm_num

theorem get_daily_summary_count (now : DateTime) (db : DB) :
    (get_daily_summary now db).total_feedings =
      (db.feedings.filter fun r => inTodayWindow now r.timestamp).length := rfl

theorem get_daily_summary_total (now : DateTime) (db : DB) :
    (get_daily_summary now db).total_volume_ml =
      ((db.feedings.filter fun r => inTodayWindow now r.timestamp).map
        fun r => r.payload.amount_ml).sum := rfl

theorem get_daily_summary_last (now : DateTime) (db : DB) :
    (get_daily_summary now db).last_feeding_time =
      match topRow db.feedings with
      | some r => r.timestamp
      | none => "None" := rfl

theorem get_daily_summary_average (now : DateTime) (db : DB)
    (h : (db.feedings.filter fun r => inTodayWindow now r.timestamp).length ≠ 0) :
    (get_daily_summary now db).average_volume_ml =
      roundTo1 (((((db.feedings.filter fun r => inTodayWindow now r.timestamp).map
          fun r => r.payload.amount_ml).sum : Int) : ℚ) /
        ((db.feedings.filter fun r => inTodayWindow now r.timestamp).length : ℚ)) := by
  simp only [get_daily_summary]
  simp only [if_neg h]
  by_cases h0 : (((((db.feedings.filter fun r => inTodayWindow now r.timestamp).map
      fun r => r.payload.amount_ml).sum : Int) : ℚ) /
        ((db.feedings.filter fun r => inTodayWindow now r.timestamp).length : ℚ)) = 0
  · rw [if_pos h0, h0, roundTo1_zero]
  · rw [if_neg h0]

/-- C2: recording `N` feeding events whose (well-formed) timestamps fall in today's
UTC+8 window, starting from an empty feeding log, makes the daily summary report
`total_feedings = N`, `total_volume_ml = sum of the amounts` and
`average_volume_ml = round(mean, 1)`; on any store whose log has no row in today's
window the three aggregates are all 0; and `last_feeding_time` is the maximal timestamp
of the whole log, or the sentinel "None" on an empty log. -/
theorem daily_summary_spec (now : DateTime) (evs : List (String × Int × String)) (db : DB)
    (hne : evs ≠ [])
    (hvalid : ∀ e ∈ evs, parseTimestamp e.1 ≠ none)
    (hwin : ∀ e ∈ evs, inTodayWindow now e.1 = true) :
    ((get_daily_summary now (recordFeedings now evs emptyDB)).total_feedings = evs.length ∧
     (get_daily_summary now (recordFeedings now evs emptyDB)).total_volume_ml =
       (evs.map fun e => e.2.1).sum ∧
     (get_daily_summary now (recordFeedings now evs emptyDB)).average_volume_ml =
       roundTo1 ((((evs.map fun e => e.2.1).sum : Int) : ℚ) / (evs.length : ℚ))) ∧
    ((db.feedings.filter fun r => inTodayWindow now r.timestamp) = [] →
      (get_daily_summary now db).total_feedings = 0 ∧
      (get_daily_summary now db).total_volume_ml = 0 ∧
      (get_daily_summary now db).average_volume_ml = 0) ∧
    (db.feedings = [] → (get_daily_summary now db).last_feeding_time = "None") ∧
    (∀ r : FeedingRow, topRow db.feedings = some r →
      (get_daily_summary now db).last_feeding_time = r.timestamp ∧
      r ∈ db.feedings ∧ ∀ x ∈ db.feedings, strLe x.timestamp r.timestamp = true) := by
  have hfeed : (recordFeedings now evs emptyDB).feedings = buildRows 1 evs := by
    rw [recordFeedings_feedings now evs emptyDB hvalid]
    rfl
  have hallwin : ∀ r ∈ buildRows 1 evs, inTodayWindow now r.timestamp = true := by
    intro r hr
    obtain ⟨e, he, heq⟩ := List.mem_map.mp (buildRows_timestamp_mem hr)
    rw [← heq]
    exact hwin e he
  have hfilter : ((buildRows 1 evs).filter fun r => inTodayWindow now r.timestamp) =
      buildRows 1 evs :=
    List.filter_eq_self.mpr hallwin
  have hlen : ((recordFeedings now evs emptyDB).feedings.filter
      fun r => inTodayWindow now r.timestamp).length = evs.length := by
    rw [hfeed, hfilter, buildRows_length]
  have hsum : (((recordFeedings now evs emptyDB).feedings.filter
      fun r => inTodayWindow now r.timestamp).map fun r => r.payload.amount_ml).sum =
      (evs.map fun e => e.2.1).sum := by
    rw [hfeed, hfilter, buildRows_map_amount]
  have hN : evs.length ≠ 0 := fun h => hne (List.length_eq_zero.mp h)
  refine ⟨⟨?_, ?_, ?_⟩, ?_, ?_, ?_⟩
  · rw [get_daily_summary_count, hlen]
  · rw [get_daily_summary_total, hsum]
  · rw [get_daily_summary_average now _ (by rw [hlen]; exact hN)]
    rw [hsum, hlen]
  · intro h
    refine ⟨?_, ?_, ?_⟩
    · rw [get_daily_summary_count, h]
      rfl
    · rw [get_daily_summary_total, h]
      rfl
    · simp only [get_daily_summary, h]
      norm_num
  · intro h
    rw [get_daily_summary_last, (topRow_none_iff db.feedings).mpr h]
  · intro r htop
    refine ⟨?_, topRow_mem htop, topRow_max htop⟩
    rw [get_daily_summary_last, htop]

theorem daily_summary_spec_witness :
    (get_daily_summary ⟨2024, 5, 1, 13, 0, 0⟩ (recordFeedings ⟨2024, 5, 1, 13, 0, 0⟩
        [("2024-05-01 08:00:00", 150, "formula"), ("2024-05-01 12:00:00", 200, "formula")]
        emptyDB)).total_feedings = 2 ∧
    (get_daily_summary ⟨2024, 5, 1, 13, 0, 0⟩ (recordFeedings ⟨2024, 5, 1, 13, 0, 0⟩
        [("2024-05-01 08:00:00", 150, "formula"), ("2024-05-01 12:00:00", 200, "formula")]
        emptyDB)).total_volume_ml = 350 ∧
    (get_daily_summary ⟨2024, 5, 1, 13, 0, 0⟩ (recordFeedings ⟨2024, 5, 1, 13, 0, 0⟩
        [("2024-05-01 08:00:00", 150, "formula"), ("2024-05-01 12:00:00", 200, "formula")]
        emptyDB)).average_volume_ml = 175 ∧
    (get_daily_summary ⟨2024, 5, 1, 13, 0, 0⟩ emptyDB).last_feeding_time = "None" := by
  have h := daily_summary_spec ⟨2024, 5, 1, 13, 0, 0⟩
    [("2024-05-01 08:00:00", 150, "formula"), ("2024-05-01 12:00:00", 200, "formula")]
    emptyDB (by decide) (by decide) (by decide)
  refine ⟨h.1.1.trans (by decide), h.1.2.1.trans (by decide), h.1.2.2.trans ?_, h.2.2.1 rfl⟩
  show roundTo1 (((350 : ℤ) : ℚ) / ((2 : ℕ) : ℚ)) = 175
  have h1 : (((350 : ℤ) : ℚ) / ((2 : ℕ) : ℚ)) * 10 = ((1750 : ℤ) : ℚ) := by norm_num
  rw [roundTo1, h1, roundHalfEven_intCast]
  norm_num

/-- C7: `get_daily_diaper_summary` maps each distinct `diaper_type` seen today to its
count, `total_changes` is the sum of those counts (equivalently the number of today's
diaper rows), and the spec's scenario — one `pee`, one `poop`, one `both` recorded the
same UTC+8 day — yields `total_changes = 3` with each count equal to 1. -/
theorem daily_diaper_summary_counts (now : DateTime) (db : DB) :
    (∀ t ∈ todaysDiaperTypes now db,
      (t, cntType t (todaysDiaperTypes now db)) ∈ (get_daily_diaper_summary now db).counts) ∧
    (get_daily_diaper_summary now db).total_changes =
      ((get_daily_diaper_summary now db).counts.map Prod.snd).sum ∧
    (get_daily_diaper_summary now db).total_changes = (todaysDiaperTypes now db).length ∧
    ((get_daily_diaper_summary ⟨2024, 5, 1, 13, 0, 0⟩ diaperScenarioDB).total_changes = 3 ∧
     (get_daily_diaper_summary ⟨2024, 5, 1, 13, 0, 0⟩ diaperScenarioDB).counts =
       [("pee", 1), ("poop", 1), ("both", 1)]) := by
  refine ⟨?_, ?_, ?_, ?_, ?_⟩
  · intro t ht
    have hmem : t ∈ dedupFirst [] (todaysDiaperTypes now db) :=
      mem_dedupFirst.mpr ⟨ht, List.not_mem_nil t⟩
    exact List.mem_map_of_mem (fun t => (t, cntType t (todaysDiaperTypes now db))) hmem
  · show ((dedupFirst [] (todaysDiaperTypes now db)).map
        (fun t => cntType t (todaysDiaperTypes now db))).sum =
      (((dedupFirst [] (todaysDiaperTypes now db)).map
        (fun t => (t, cntType t (todaysDiaperTypes now db)))).map Prod.snd).sum
    rw [List.map_map]
    rfl
  · show ((dedupFirst [] (todaysDiaperTypes now db)).map
        (fun t => cntType t (todaysDiaperTypes now db))).sum = _
    rw [dedupFirst_sum (todaysDiaperTypes now db) []]
    simp
  · decide
  · decide

theorem daily_diaper_summary_counts_witness :
    ("pee", 1) ∈ (get_daily_diaper_summary ⟨2024, 5, 1, 13, 0, 0⟩ diaperScenarioDB).counts := by
  have h := (daily_diaper_summary_counts ⟨2024, 5, 1, 13, 0, 0⟩ diaperScenarioDB).1
    "pee" (by decide)
  have e : cntType "pee" (todaysDiaperTypes ⟨2024, 5, 1, 13, 0, 0⟩ diaperScenarioDB) = 1 := by
    decide
  rw [e] at h
  exact h
